import Mathlib

/-!
Verification development for the kickbeats core: a shallow embedding of the
pattern generator, the pattern validator, the beat-grid timing math, the MIDI
event builder, and the playback scheduling loop, together with theorems that
settle the specification claims against this embedding.

Modelling conventions:
* Rust machine integers (`u8`, `u16`, `u32`, `usize`) become `Nat`; none of the
  relevant arithmetic can overflow at the values the program uses.
* Rust `f32`/`f64` values become `ℚ`.  Every float constant appearing in the
  embedded code paths (0.05, 0.1, 0.125, 0.2, 0.3, 0.4, 0.5, 0.6, 0.7, 1.5,
  2.0, tempo divisions by powers of two) is modelled by its exact rational
  value; the claims proved here only depend on equalities and order relations
  between such values.
* `Result<T, String>` becomes `Except String T` (validator) or a small error
  inductive (generator), and the generator's `ThreadRng` becomes an explicit
  stream of draws `Nat → Nat` threaded by position.
* The fields `id : Uuid` and `created_at : SystemTime` of `Pattern` are
  side-effecting identity metadata never read by any embedded operation and
  are omitted.
-/

deriving instance DecidableEq for Except

/- Batteries marks the rational-number operations `@[irreducible]`, which
blocks the elaborator-side evaluation used by `decide` on concrete rational
arithmetic; the kernel itself reduces them fine.  Restore semireducibility so
concrete evaluations of the embedded timing and density arithmetic go through. -/
set_option allowUnsafeReducibility true in
attribute [semireducible] Rat.mul Rat.add Rat.sub Rat.inv Rat.ofScientific Rat.div

/-- Musical time signature (src/models/time_signature.rs). -/
structure TimeSignature where
  numerator : Nat
  denominator : Nat
deriving DecidableEq

/-- `TimeSignature::four_four()`. -/
def TimeSignature.four_four : TimeSignature := ⟨4, 4⟩

/-- Generation complexity level (src/models/complexity.rs). -/
inductive ComplexityLevel where
  | Simple
  | Medium
  | Complex
deriving DecidableEq

/-- The rhythmic framework (src/models/beat_grid.rs). -/
structure BeatGrid where
  time_signature : TimeSignature
  subdivision : Nat
  num_measures : Nat
deriving DecidableEq

/-- `BeatGrid::total_positions` (beat_grid.rs lines 29-38); `usize` division. -/
def BeatGrid.total_positions (g : BeatGrid) : Nat :=
  let sixteenths_per_quarter := g.subdivision / 4
  let quarters_per_measure := (g.time_signature.numerator * 4) / g.time_signature.denominator
  sixteenths_per_quarter * quarters_per_measure * g.num_measures

/-- `BeatGrid::beat_positions` (beat_grid.rs lines 41-46). -/
def BeatGrid.beat_positions (g : BeatGrid) : List Nat :=
  let positions_per_beat := g.subdivision / 4
  (List.range g.time_signature.numerator).map (fun beat => beat * positions_per_beat)

/-- `BeatGrid::beat_strength` (beat_grid.rs lines 70-114): metrical strength of
a beat number, keyed on the time signature. -/
def BeatGrid.beat_strength (g : BeatGrid) (beat_num : Nat) : ℚ :=
  match g.time_signature.numerator, g.time_signature.denominator with
  | 4, 4 => (match beat_num with | 0 => 1.0 | 2 => 0.7 | _ => 0.4)
  | 3, 4 => (match beat_num with | 0 => 1.0 | _ => 0.4)
  | 6, 8 => (match beat_num with | 0 => 1.0 | 3 => 0.6 | _ => 0.3)
  | 2, 4 => (match beat_num with | 0 => 1.0 | _ => 0.4)
  | 5, 4 => (match beat_num with | 0 => 1.0 | 2 => 0.6 | _ => 0.3)
  | 7, 8 => (match beat_num with | 0 => 1.0 | 2 => 0.6 | 4 => 0.5 | _ => 0.3)
  | _, _ =>
    if beat_num == 0 then 1.0
    else if beat_num == g.time_signature.numerator / 2 then 0.6
    else 0.4

/-- `BeatGrid::position_strength` (beat_grid.rs lines 50-66).  Rust's
`idx.is_multiple_of(p)` agrees with `idx % p == 0` also at `p = 0`. -/
def BeatGrid.position_strength (g : BeatGrid) (idx : Nat) : ℚ :=
  let positions_per_beat := g.subdivision / 4
  if idx == 0 then 1.0
  else if idx % positions_per_beat == 0 then g.beat_strength (idx / positions_per_beat)
  else 0.2

/-- `BeatGrid::seconds_per_position` (beat_grid.rs lines 117-125). -/
def BeatGrid.seconds_per_position (g : BeatGrid) (tempo_bpm : Nat) : ℚ :=
  let quarter_note_seconds : ℚ := 60 / (tempo_bpm : ℚ)
  let subdivisions_per_quarter : ℚ := (g.subdivision : ℚ) / 4
  quarter_note_seconds / subdivisions_per_quarter

/-- A rhythmic sequence of kick drum hits and rests (src/models/pattern.rs).
The `id` and `created_at` metadata fields are omitted (never read). -/
structure Pattern where
  steps : List Bool
  time_signature : TimeSignature
  subdivision : Nat
  num_measures : Nat
  complexity_level : ComplexityLevel
deriving DecidableEq

/-- `Pattern::new` (pattern.rs lines 27-44): fixes one measure of sixteenths. -/
def Pattern.new (steps : List Bool) (time_signature : TimeSignature)
    (complexity_level : ComplexityLevel) : Pattern :=
  { steps := steps
    time_signature := time_signature
    subdivision := 16
    num_measures := 1
    complexity_level := complexity_level }

/-- `Pattern::density` (pattern.rs lines 56-59): kicks / total positions. -/
def Pattern.density (p : Pattern) : ℚ :=
  ((p.steps.filter fun s => s).length : ℚ) / (p.steps.length : ℚ)

/-- `Pattern::hamming_distance` (pattern.rs lines 62-68): `zip` stops at the
shorter of the two step sequences. -/
def Pattern.hamming_distance (p other : Pattern) : Nat :=
  ((p.steps.zip other.steps).filter fun ab => ab.1 != ab.2).length

/-- The scanner of validation rule 4 (pattern.rs lines 92-102): early
`return Err` as soon as a third consecutive kick is seen. -/
def kick_run_exceeds_two : List Bool → Nat → Bool
  | [], _ => false
  | has_kick :: rest, consecutive =>
    if has_kick then
      if consecutive + 1 > 2 then true else kick_run_exceeds_two rest (consecutive + 1)
    else kick_run_exceeds_two rest 0

/-- The scanner of validation rule 5 (pattern.rs lines 105-116): a flag is set
once a rest run of length at least two has been seen. -/
def has_rest_run_of_two : List Bool → Nat → Bool → Bool
  | [], _, found => found
  | has_kick :: rest, rest_count, found =>
    if !has_kick then
      has_rest_run_of_two rest (rest_count + 1) (found || decide (rest_count + 1 ≥ 2))
    else has_rest_run_of_two rest 0 found

/-- The scanner of validation rule 6 (pattern.rs lines 122-132): early
`return Err` as soon as a ninth consecutive rest is seen. -/
def rest_run_exceeds_eight : List Bool → Nat → Bool
  | [], _ => false
  | has_kick :: rest, rest_count =>
    if !has_kick then
      if rest_count + 1 > 8 then true else rest_run_exceeds_eight rest (rest_count + 1)
    else rest_run_exceeds_eight rest 0

/-- `Pattern::validate_steps` (pattern.rs lines 71-135): the six rules in
order, returning the first violated rule.  The density error message carries a
formatted number in Rust; the static text is kept here. -/
def Pattern.validate_steps (p : Pattern) : Except String Unit :=
  if !p.steps.any fun s => s then
    .error "Pattern must have at least one kick"
  else if !p.steps.getD 0 false then
    .error "Pattern must have kick on beat 1 (position 0)"
  else if p.density < 0.125 ∨ p.density > 0.5 then
    .error "Pattern density out of range [0.125, 0.5]"
  else if kick_run_exceeds_two p.steps 0 then
    .error "Pattern must not have more than 2 consecutive kicks"
  else if !has_rest_run_of_two p.steps 0 false then
    .error "Pattern must have at least one rest of 2+ positions"
  else if rest_run_exceeds_eight p.steps 0 then
    .error "Pattern must not have more than 8 consecutive rests"
  else
    .ok ()

/-- Length of the longest run of the value `b`, with an accumulator for the
run currently open.  Semantic companion of the three run scanners. -/
def maxRunAux (b : Bool) : List Bool → Nat → Nat
  | [], current => current
  | x :: rest, current =>
    if x = b then maxRunAux b rest (current + 1)
    else Nat.max current (maxRunAux b rest 0)

/-- Length of the longest run of the value `b` in a list of steps. -/
def maxRun (b : Bool) (l : List Bool) : Nat := maxRunAux b l 0

/-- The six validity invariants of the specification, stated semantically:
mandatory downbeat, density within [1/8, 1/2], no kick run longer than 2, some
rest run of length at least 2, no rest run longer than 8, at least one kick. -/
def validInvariants (p : Pattern) : Prop :=
  p.steps.getD 0 false = true ∧
  (1/8 : ℚ) ≤ p.density ∧
  p.density ≤ 1/2 ∧
  maxRun true p.steps ≤ 2 ∧
  2 ≤ maxRun false p.steps ∧
  maxRun false p.steps ≤ 8 ∧
  (p.steps.any fun s => s) = true

/-- `is_pattern_unique` (src/generator/unique.rs lines 9-28): a pattern is
unique when its Hamming distance to every pattern in history is at least
`min_distance`; an empty history is automatically unique. -/
def is_pattern_unique (pattern : Pattern) (history : List Pattern)
    (min_distance : Nat) : Bool :=
  if history.isEmpty then true
  else history.all fun prev => !decide (pattern.hamming_distance prev < min_distance)

/-- `WeightedGenerator::base_weights_4_4` (src/generator/weighted.rs lines
39-50): base metrical weights for 16 sixteenth positions of one 4/4 measure. -/
def base_weights_4_4 : List ℚ :=
  [1.0,
   0.2, 0.3, 0.2,
   0.4,
   0.2, 0.3, 0.2,
   0.7,
   0.2, 0.3, 0.2,
   0.4,
   0.2, 0.3, 0.2]

/-- `WeightedGenerator::adjust_weights_for_complexity` (weighted.rs lines
53-92). -/
def adjust_weights_for_complexity (base_weights : List ℚ)
    (complexity : ComplexityLevel) : List ℚ :=
  match complexity with
  | .Simple => base_weights.enum.map fun iw => if iw.1 % 4 == 0 then iw.2 * 2.0 else iw.2 * 0.5
  | .Medium => base_weights
  | .Complex => base_weights.enum.map fun iw => if iw.1 % 4 == 0 then iw.2 else iw.2 * 1.5

/-- `WeightedGenerator::target_kicks_for_complexity` (weighted.rs lines
95-101): inclusive (min, max) kick-count range per complexity. -/
def target_kicks_for_complexity (complexity : ComplexityLevel) : Nat × Nat :=
  match complexity with
  | .Simple => (2, 4)
  | .Medium => (4, 6)
  | .Complex => (6, 8)

/-- The generator's random draws, modelled as an explicit stream: draw number
`k` of the session is `s k`.  Claims about the generator quantify over all
streams, so no distributional assumption is made. -/
abbrev Draws := Nat → Nat

/-- The adjusted weights scaled to integer sampling units.  Every adjusted
weight is an exact multiple of 1/20 (base weights are multiples of 1/10 and
the complexity factors are 2, 1/2 and 3/2), so scaling by 20 loses nothing. -/
def weight_units (ws : List ℚ) : List Nat :=
  ws.map fun w => (w * 20).num.toNat

/-- Cumulative-weight lookup: the index whose weight bracket contains `r`. -/
def weighted_pick : List Nat → Nat → Nat → Nat
  | [], _, idx => idx
  | u :: rest, r, idx => if r < u then idx else weighted_pick rest (r - u) (idx + 1)

/-- `WeightedIndex::sample` on strictly positive weights, modelled as a
cumulative lookup of one draw reduced modulo the total weight.  (The real
sampler draws uniformly; only which indices are reachable matters here, and
every index with positive weight is reachable under some draw.) -/
def sample_index (units : List Nat) (v : Nat) : Nat :=
  weighted_pick units (v % units.sum) 0

/-- The candidate sampling loop of `generate` / `try_generate_with_distance`
(weighted.rs lines 134-139 and 242-247): while fewer kicks than the target
and fewer than 100 attempts, sample one position and set it (a no-op when the
position is already set).  Returns the steps and the next draw position. -/
def sample_steps (units : List Nat) (target_kicks : Nat) (s : Draws) :
    Nat → List Bool → Nat → List Bool × Nat
  | k, steps, 0 => (steps, k)
  | k, steps, fuel + 1 =>
    if (steps.filter fun st => st).length < target_kicks then
      sample_steps units target_kicks s (k + 1) (steps.set (sample_index units (s k)) true) fuel
    else (steps, k)

/-- One candidate construction shared verbatim by `generate` and
`try_generate_with_distance` (weighted.rs lines 115-139 and 223-247): adjust
the 4/4 base weights for the complexity, draw a target kick count from the
complexity's range, force position 0 to a kick, then run the sampling loop
with the per-candidate cap of 100 draws.  (`WeightedIndex::new` cannot fail
here: the weights are fixed and strictly positive.) -/
def build_candidate (complexity : ComplexityLevel) (s : Draws) (k : Nat) :
    List Bool × Nat :=
  let adjusted_weights := adjust_weights_for_complexity base_weights_4_4 complexity
  let units := weight_units adjusted_weights
  let mm := target_kicks_for_complexity complexity
  let target_kicks := mm.1 + (s k) % (mm.2 - mm.1 + 1)
  let steps0 := (List.replicate 16 false).set 0 true
  sample_steps units target_kicks s (k + 1) steps0 100

/-- Generator failure conditions, abstracting the `Err(String)` values of
weighted.rs: the 4/4-only guard (lines 111-113 and 219-221), the per-tier
exhaustion (lines 263-266), the 1000-attempt exhaustion of `generate`
(line 159), and the final exhaustion of `generate_unique` (lines 204-207). -/
inductive GenErr where
  | unsupported_signature
  | distance_not_met (min_distance : Nat)
  | no_valid_unique_pattern
  | generation_exhausted
deriving DecidableEq

/-- The 1000-iteration retry loop of `WeightedGenerator::generate`
(weighted.rs lines 120-157): build a candidate, validate it, and accept it
only when its Hamming distance to every pattern in history is at least 3. -/
def generate_loop (ts : TimeSignature) (c : ComplexityLevel)
    (history : List Pattern) (s : Draws) : Nat → Nat → Except GenErr Pattern × Nat
  | 0, k => (.error .no_valid_unique_pattern, k)
  | fuel + 1, k =>
    let ck := build_candidate c s k
    let pattern := Pattern.new ck.1 ts c
    match pattern.validate_steps with
    | .error _ => generate_loop ts c history s fuel ck.2
    | .ok _ =>
      if history.all fun prev => decide (pattern.hamming_distance prev ≥ 3) then
        (.ok pattern, ck.2)
      else generate_loop ts c history s fuel ck.2

/-- `WeightedGenerator::generate` (weighted.rs lines 104-160): 4/4-only
guard, then up to 1000 candidate attempts. -/
def generate (ts : TimeSignature) (c : ComplexityLevel) (history : List Pattern)
    (s : Draws) (k : Nat) : Except GenErr Pattern × Nat :=
  if ts.numerator ≠ 4 ∨ ts.denominator ≠ 4 then (.error .unsupported_signature, k)
  else generate_loop ts c history s 1000 k

/-- The 100-iteration retry loop of `try_generate_with_distance` (weighted.rs
lines 228-261): build a candidate, validate it, and accept it only when
`is_pattern_unique` holds at the given distance. -/
def try_generate_loop (ts : TimeSignature) (c : ComplexityLevel)
    (history : List Pattern) (min_distance : Nat) (s : Draws) :
    Nat → Nat → Except GenErr Pattern × Nat
  | 0, k => (.error (.distance_not_met min_distance), k)
  | fuel + 1, k =>
    let ck := build_candidate c s k
    let pattern := Pattern.new ck.1 ts c
    match pattern.validate_steps with
    | .error _ => try_generate_loop ts c history min_distance s fuel ck.2
    | .ok _ =>
      if is_pattern_unique pattern history min_distance then (.ok pattern, ck.2)
      else try_generate_loop ts c history min_distance s fuel ck.2

/-- `WeightedGenerator::try_generate_with_distance` (weighted.rs lines
211-267): 4/4-only guard, then up to 100 candidate attempts at the given
minimum Hamming distance. -/
def try_generate_with_distance (ts : TimeSignature) (c : ComplexityLevel)
    (history : List Pattern) (min_distance : Nat) (s : Draws) (k : Nat) :
    Except GenErr Pattern × Nat :=
  if ts.numerator ≠ 4 ∨ ts.denominator ≠ 4 then (.error .unsupported_signature, k)
  else try_generate_loop ts c history min_distance s 100 k

/-- One of the three `for _ in 0..10` cycles of `generate_unique` (weighted.rs
lines 178-202): run `try_generate_with_distance` up to `tries` times at one
distance tier, returning the first success. -/
def attempt_tier (ts : TimeSignature) (c : ComplexityLevel)
    (history : List Pattern) (s : Draws) (min_distance : Nat) :
    Nat → Nat → Option Pattern × Nat
  | 0, k => (none, k)
  | tries + 1, k =>
    match try_generate_with_distance ts c history min_distance s k with
    | (.ok pattern, k2) => (some pattern, k2)
    | (.error _, k2) => attempt_tier ts c history s min_distance tries k2

/-- `WeightedGenerator::generate_unique` (weighted.rs lines 171-208): 10
cycles at distance 3, then 10 at distance 2, then 10 at distance 1, returning
the first success paired with its tier, else the exhaustion error. -/
def generate_unique (ts : TimeSignature) (c : ComplexityLevel)
    (history : List Pattern) (s : Draws) (k : Nat) :
    Except GenErr (Pattern × Nat) :=
  match attempt_tier ts c history s 3 10 k with
  | (some pattern, _) => .ok (pattern, 3)
  | (none, k1) =>
    match attempt_tier ts c history s 2 10 k1 with
    | (some pattern, _) => .ok (pattern, 2)
    | (none, k2) =>
      match attempt_tier ts c history s 1 10 k2 with
      | (some pattern, _) => .ok (pattern, 1)
      | (none, _) => .error .generation_exhausted

/-- The specification's escalation policy (spec 4.3 step 8 and 9: an explicit
iterator over (distanceTier, maxAttempts) pairs consumed by one retry driver),
used to state the refinement in claim C4. -/
def escalation_driver (ts : TimeSignature) (c : ComplexityLevel)
    (history : List Pattern) (s : Draws) :
    List (Nat × Nat) → Nat → Except GenErr (Pattern × Nat)
  | [], _ => .error .generation_exhausted
  | (tier, tries) :: rest, k =>
    match attempt_tier ts c history s tier tries k with
    | (some pattern, _) => .ok (pattern, tier)
    | (none, k2) => escalation_driver ts c history s rest k2

/-- MIDI note number for the kick drum (src/engine/midi.rs line 7). -/
def KICK_NOTE : Nat := 36

/-- MIDI note number for the click (midi.rs line 10). -/
def CLICK_NOTE : Nat := 37

/-- Default kick velocity (midi.rs line 13). -/
def KICK_VELOCITY : Nat := 100

/-- Default click velocity (midi.rs line 16). -/
def CLICK_VELOCITY : Nat := 80

/-- `MidiEventType` (midi.rs lines 114-118). -/
inductive MidiEventType where
  | NoteOn
  | NoteOff
deriving DecidableEq

/-- A scheduled MIDI event (midi.rs lines 101-112); `time_offset` is seconds
from the start of the phase, modelled exactly in ℚ. -/
structure MidiEvent where
  time_offset : ℚ
  note : Nat
  velocity : Nat
  event_type : MidiEventType
deriving DecidableEq

/-- The click-track half of `pattern_to_midi_events` (midi.rs lines 264-285):
for each beat position, a click trigger and a release 50ms later, pushed in
that order. -/
def click_events (spp : ℚ) : List Nat → List MidiEvent
  | [] => []
  | beat_idx :: rest =>
    { time_offset := (beat_idx : ℚ) * spp, note := CLICK_NOTE,
      velocity := CLICK_VELOCITY, event_type := .NoteOn } ::
    { time_offset := (beat_idx : ℚ) * spp + 0.05, note := CLICK_NOTE,
      velocity := 0, event_type := .NoteOff } ::
    click_events spp rest

/-- The kick-drum half of `pattern_to_midi_events` (midi.rs lines 287-308):
for each kick position, a trigger and a release 100ms later, pushed in that
order; `i` is the enumeration index. -/
def kick_events (spp : ℚ) : List Bool → Nat → List MidiEvent
  | [], _ => []
  | has_kick :: rest, i =>
    if has_kick then
      { time_offset := (i : ℚ) * spp, note := KICK_NOTE,
        velocity := KICK_VELOCITY, event_type := .NoteOn } ::
      { time_offset := (i : ℚ) * spp + 0.1, note := KICK_NOTE,
        velocity := 0, event_type := .NoteOff } ::
      kick_events spp rest (i + 1)
    else kick_events spp rest (i + 1)

/-- Stable insertion of an event into a time-sorted list: the new event goes
after every already-present event whose offset is not greater. -/
def insert_by_time (e : MidiEvent) : List MidiEvent → List MidiEvent
  | [] => [e]
  | x :: xs => if e.time_offset < x.time_offset then e :: x :: xs else x :: insert_by_time e xs

/-- The final `events.sort_by(time_offset)` of midi.rs line 311; Rust's
`sort_by` is a stable sort, modelled as left-to-right stable insertion. -/
def sort_by_time (l : List MidiEvent) : List MidiEvent :=
  l.foldl (fun acc e => insert_by_time e acc) []

/-- `MidiEngine::pattern_to_midi_events` (midi.rs lines 246-314): click
trigger/release pairs on every beat (when requested), then kick
trigger/release pairs on every kick position, merged by a stable sort on the
time offset. -/
def pattern_to_midi_events (p : Pattern) (tempo_bpm : Nat) (include_click : Bool) :
    List MidiEvent :=
  let grid := BeatGrid.mk p.time_signature p.subdivision p.num_measures
  let spp := grid.seconds_per_position tempo_bpm
  let clicks := if include_click then click_events spp grid.beat_positions else []
  sort_by_time (clicks ++ kick_events spp p.steps 0)

/-- `MidiEngine::pattern_duration` (midi.rs lines 322-331). -/
def pattern_duration (p : Pattern) (tempo_bpm : Nat) : ℚ :=
  let grid := BeatGrid.mk p.time_signature p.subdivision p.num_measures
  (grid.total_positions : ℚ) * grid.seconds_per_position tempo_bpm

/-- One iteration of the playback loop as observed by the scheduler
(src/engine/playback.rs lines 110-140): the ideal start instant, the measured
drift in milliseconds, and whether the whole iteration is skipped. -/
structure LoopIter where
  expected : ℚ
  drift_ms : ℚ
  skipped : Bool
deriving DecidableEq

/-- The head of playback.rs's while-loop body (lines 110-140) for iteration
`n`, with the clock readings supplied externally: `(clock n).1` is the
`Instant::now()` taken as `actual_loop_start`, `(clock n).2` the later
`Instant::now()` consulted by the skip check.  `expected_loop_start` is
`pattern_start_time + loop_count * pattern_duration` (lines 111-112), the
drift is `(actual - expected) * 1000` when positive (lines 116-120), and the
iteration is skipped when `now` is already past `loop_start +
pattern_duration` (line 137) where `loop_start` is the ideal instant
(line 133). -/
def loop_iter (pattern_start_time pattern_dur : ℚ) (clock : Nat → ℚ × ℚ)
    (n : Nat) : LoopIter :=
  let expected_loop_start := pattern_start_time + (n : ℚ) * pattern_dur
  let actual_loop_start := (clock n).1
  let drift := if expected_loop_start < actual_loop_start then
    (actual_loop_start - expected_loop_start) * 1000 else 0
  let loop_start := expected_loop_start
  { expected := loop_start
    drift_ms := drift
    skipped := decide (loop_start + pattern_dur < (clock n).2) }

/-- The first `iterations` iterations of the playback loop (playback.rs lines
102-174): `pattern_start_time = start_time + count_in_duration` (line 103)
and `loop_count` increments by one every iteration, on the skip path and the
play path alike. -/
def loop_trace (start_time count_in_duration pattern_dur : ℚ)
    (clock : Nat → ℚ × ℚ) (iterations : Nat) : List LoopIter :=
  (List.range iterations).map (loop_iter (start_time + count_in_duration) pattern_dur clock)

/-- Whether the playback thread of `MidiPlaybackLoop::start` is still inside
its loops or has exited. -/
inductive PlayerPhase where
  | running
  | finished
deriving DecidableEq

/-- Shared state of the controller and the playback thread (playback.rs):
the `is_playing` atomic flag, the playback thread's phase, whether `stop`
has already stored `false`, whether `stop` has returned from `join`, and how
many events were sent after `stop` returned. -/
structure LoopSys where
  is_playing : Bool
  player : PlayerPhase
  stop_stored : Bool
  stop_returned : Bool
  emitted_after_stop : Nat
deriving DecidableEq

/-- Interleaved small steps of the playback thread and the controller
(playback.rs lines 62-199):
* `emit` — the thread sends one MIDI event (lines 83-88 and 154-159); a send
  may follow a clear of the flag that happened after the previous poll, so it
  is not guarded by `is_playing`;
* `poll_exit` — the thread observes `is_playing == false` at a poll point
  (lines 97-99, 110, 168-170) and leaves its loops;
* `send_failure` — a send fails, the thread stores `false` and exits
  (lines 90-94 and 161-165);
* `stop_store` — `stop` stores `false` (line 188);
* `stop_join` — `stop` returns from `handle.join()` (lines 191-193), which is
  only possible once the thread has exited. -/
inductive LoopStep : LoopSys → LoopSys → Prop where
  | emit (s : LoopSys) (h : s.player = .running) :
      LoopStep s { s with emitted_after_stop :=
        s.emitted_after_stop + (if s.stop_returned then 1 else 0) }
  | poll_exit (s : LoopSys) (h : s.player = .running) (hf : s.is_playing = false) :
      LoopStep s { s with player := .finished }
  | send_failure (s : LoopSys) (h : s.player = .running) :
      LoopStep s { s with is_playing := false, player := .finished }
  | stop_store (s : LoopSys) :
      LoopStep s { s with is_playing := false, stop_stored := true }
  | stop_join (s : LoopSys) (h : s.stop_stored = true) (hp : s.player = .finished) :
      LoopStep s { s with stop_returned := true }

/-- The state right after `start` has spawned the playback thread
(playback.rs lines 58-62): flag set, thread running, `stop` not called. -/
def startedSys : LoopSys :=
  { is_playing := true, player := .running, stop_stored := false,
    stop_returned := false, emitted_after_stop := 0 }

/-- States reachable from `startedSys` by interleaved steps. -/
def ReachableSys (s : LoopSys) : Prop :=
  Relation.ReflTransGen LoopStep startedSys s

/-- Non-decreasing time-offset order on MIDI events. -/
def time_le (a b : MidiEvent) : Prop := a.time_offset ≤ b.time_offset

/-- The tie-break discipline: at equal offsets a kick event never precedes a
click event (click events are appended first and the sort is stable). -/
def tie_click_first (a b : MidiEvent) : Prop :=
  a.time_offset = b.time_offset → ¬(a.note = KICK_NOTE ∧ b.note = CLICK_NOTE)

/-! ## Helper lemmas -/

/-- When the signature is not 4/4, every cycle of a tier returns no pattern
and leaves the draw position untouched. -/
theorem attempt_tier_unsupported (ts : TimeSignature) (c : ComplexityLevel)
    (history : List Pattern) (s : Draws) (d : Nat)
    (h : ts.numerator ≠ 4 ∨ ts.denominator ≠ 4) :
    ∀ tries k, attempt_tier ts c history s d tries k = (none, k) := by
  intro tries
  induction tries with
  | zero => intro k; rfl
  | succ n ih =>
    intro k
    have hsig : try_generate_with_distance ts c history d s k =
        (.error .unsupported_signature, k) := by
      unfold try_generate_with_distance
      exact if_pos h
    rw [attempt_tier, hsig]
    exact ih k

/-- `zip`-based difference count equals the index-based count over the
common prefix length. -/
theorem zip_diff_count_eq (x : List Bool) : ∀ y : List Bool,
    ((x.zip y).filter fun ab => ab.1 != ab.2).length =
      (List.range (min x.length y.length)).countP
        (fun i => x.getD i false != y.getD i false) := by
  induction x with
  | nil => intro y; simp [List.zip]
  | cons a xrest ih =>
    intro y
    cases y with
    | nil => simp [List.zip]
    | cons b yrest =>
      simp only [← List.countP_eq_length_filter] at ih ⊢
      have hmin : min (a :: xrest).length (b :: yrest).length =
          min xrest.length yrest.length + 1 := by
        simp [Nat.succ_min_succ]
      rw [List.zip_cons_cons, List.countP_cons, hmin, List.range_succ_eq_map,
        List.countP_cons, List.countP_map, ih yrest]
      simp [Function.comp_def, Nat.succ_eq_add_one]

/-- Lists agreeing on the zipped prefix have no zipped differences. -/
theorem zip_diff_zero_of_take_eq (x : List Bool) : ∀ y : List Bool,
    x.take (min x.length y.length) = y.take (min x.length y.length) →
    ((x.zip y).filter fun ab => ab.1 != ab.2).length = 0 := by
  induction x with
  | nil => intro y _; simp [List.zip]
  | cons a xrest ih =>
    intro y
    cases y with
    | nil => intro _; simp [List.zip]
    | cons b yrest =>
      intro htake
      have hmin : min (a :: xrest).length (b :: yrest).length =
          min xrest.length yrest.length + 1 := by
        simp [Nat.succ_min_succ]
      rw [hmin, List.take_succ_cons, List.take_succ_cons] at htake
      have hab : a = b := List.head_eq_of_cons_eq htake
      have hrest := ih yrest (List.tail_eq_of_cons_eq htake)
      rw [List.zip_cons_cons]
      simp [hab, hrest]

/-! ## Claim theorems -/

/-- C9: for the 4/4 grid at subdivision 16 with one measure,
`total_positions` is 16, `beat_positions` is [0, 4, 8, 12],
`seconds_per_position` at 120 BPM is exactly 0.125 seconds, and the full
pattern duration at 120 BPM is exactly 2.0 seconds. -/
theorem four_four_grid_timing :
    (BeatGrid.mk TimeSignature.four_four 16 1).total_positions = 16 ∧
    (BeatGrid.mk TimeSignature.four_four 16 1).beat_positions = [0, 4, 8, 12] ∧
    (BeatGrid.mk TimeSignature.four_four 16 1).seconds_per_position 120 = 0.125 ∧
    ∀ (steps : List Bool) (c : ComplexityLevel),
      pattern_duration (Pattern.new steps TimeSignature.four_four c) 120 = 2 := by
  refine ⟨by decide, by decide, by decide, ?_⟩
  intro steps c
  show (((BeatGrid.mk TimeSignature.four_four 16 1).total_positions : ℚ) *
    (BeatGrid.mk TimeSignature.four_four 16 1).seconds_per_position 120) = 2
  decide

/-- C10: `hamming_distance` is total over step sequences of any (possibly
unequal) lengths: it counts differing positions over the first
min(len(a), len(b)) indices only, ignoring all trailing positions of the
longer sequence; in particular, two patterns agreeing on the shared prefix
have distance zero. -/
theorem hamming_distance_min_overlap : ∀ a b : Pattern,
    a.hamming_distance b =
      (List.range (min a.steps.length b.steps.length)).countP
        (fun i => a.steps.getD i false != b.steps.getD i false) ∧
    (a.steps.take (min a.steps.length b.steps.length) =
        b.steps.take (min a.steps.length b.steps.length) →
      a.hamming_distance b = 0) := by
  intro a b
  constructor
  · exact zip_diff_count_eq a.steps b.steps
  · intro htake
    exact zip_diff_zero_of_take_eq a.steps b.steps htake

/-- C10 witness: two patterns of lengths 16 and 4 agreeing on the shared
4-step prefix have Hamming distance 0. -/
theorem hamming_distance_min_overlap_witness :
    (Pattern.new [true, false, true, false, true, false, false, false,
        true, false, false, false, true, false, false, false]
      TimeSignature.four_four .Simple).hamming_distance
      (Pattern.new [true, false, true, false] TimeSignature.four_four .Medium) = 0 :=
  (hamming_distance_min_overlap
    (Pattern.new [true, false, true, false, true, false, false, false,
        true, false, false, false, true, false, false, false]
      TimeSignature.four_four .Simple)
    (Pattern.new [true, false, true, false] TimeSignature.four_four .Medium)).2
    (by decide)

/-- C2 counterexample: at index 2 the generator's base weight table holds
0.3 while `position_strength` of the 4/4 grid gives 0.2, so the base weights
do not equal `position_strength` at every index. -/
theorem base_weights_mismatch_at_two :
    base_weights_4_4.getD 2 0 = 0.3 ∧
    (BeatGrid.mk TimeSignature.four_four 16 1).position_strength 2 = 0.2 ∧
    (0.3 : ℚ) ≠ 0.2 := by
  refine ⟨by decide, by decide, by decide⟩

/-- C2 amended: the base weight table agrees with `position_strength` of the
4/4 grid at every index except those congruent to 2 mod 4 (the second
sixteenth inside each beat), where the table holds 0.3 but
`position_strength` gives 0.2. -/
theorem base_weights_vs_position_strength :
    ∀ i, i < 16 →
      (i % 4 ≠ 2 →
        base_weights_4_4.getD i 0 =
          (BeatGrid.mk TimeSignature.four_four 16 1).position_strength i) ∧
      (i % 4 = 2 →
        base_weights_4_4.getD i 0 = 0.3 ∧
        (BeatGrid.mk TimeSignature.four_four 16 1).position_strength i = 0.2) := by
  decide

/-- C2 witness: at index 8 (beat 3) the base weight equals
`position_strength`, namely 0.7. -/
theorem base_weights_vs_position_strength_witness :
    base_weights_4_4.getD 8 0 =
      (BeatGrid.mk TimeSignature.four_four 16 1).position_strength 8 :=
  ((base_weights_vs_position_strength 8 (by decide)).1 (by decide))

/-- C1 counterexample: for the 3/4 signature `generate_unique` does not fail
fast with the UnsupportedSignature condition — it runs its cycles (each of
which fails internally) and reports the GenerationExhausted condition. -/
theorem generate_unique_three_four_exhausts :
    generate_unique ⟨3, 4⟩ .Simple [] (fun _ => 0) 0 = .error .generation_exhausted ∧
    GenErr.generation_exhausted ≠ GenErr.unsupported_signature := by
  refine ⟨by decide, by decide⟩

/-- C1 amended: for every non-4/4 signature, complexity, history and draw
stream, each internal `try_generate_with_distance` cycle fails fast with the
UnsupportedSignature condition (before consuming any randomness), and
`generate_unique` — whose cycles discard the error's identity — terminates
with the GenerationExhausted condition rather than UnsupportedSignature;
plain `generate` does fail fast with UnsupportedSignature. -/
theorem unsupported_signature_behaviour (ts : TimeSignature) (c : ComplexityLevel)
    (history : List Pattern) (s : Draws) (k d : Nat)
    (h : ts.numerator ≠ 4 ∨ ts.denominator ≠ 4) :
    try_generate_with_distance ts c history d s k = (.error .unsupported_signature, k) ∧
    generate ts c history s k = (.error .unsupported_signature, k) ∧
    generate_unique ts c history s k = .error .generation_exhausted := by
  refine ⟨?_, ?_, ?_⟩
  · unfold try_generate_with_distance
    exact if_pos h
  · unfold generate
    exact if_pos h
  · simp only [generate_unique, attempt_tier_unsupported ts c history s 3 h,
      attempt_tier_unsupported ts c history s 2 h,
      attempt_tier_unsupported ts c history s 1 h]

/-- C1 witness: the amended statement evaluated for the 6/8 signature. -/
theorem unsupported_signature_behaviour_witness :
    try_generate_with_distance ⟨6, 8⟩ .Medium [] 3 (fun _ => 0) 7 =
      (.error .unsupported_signature, 7) ∧
    generate ⟨6, 8⟩ .Medium [] (fun _ => 0) 7 = (.error .unsupported_signature, 7) ∧
    generate_unique ⟨6, 8⟩ .Medium [] (fun _ => 0) 7 = .error .generation_exhausted :=
  unsupported_signature_behaviour ⟨6, 8⟩ .Medium [] (fun _ => 0) 7 3 (by decide)

/-- C5: for every loop iteration `n`, the ideal start instant equals
`T0 + countInDuration + n * patternDuration`, a function of the fixed
schedule and `n` alone; and the per-iteration scheduling outcome (ideal
start, skip decision) is invariant under arbitrary changes to the
`actual_loop_start` clock readings that feed the drift measurement — drift
only affects the reported `drift_ms` values. -/
theorem loop_schedule_is_fixed (start_time count_in_duration pattern_dur : ℚ)
    (clock : Nat → ℚ × ℚ) (iterations : Nat) :
    (∀ n, n < iterations →
      ((loop_trace start_time count_in_duration pattern_dur clock iterations).getD n
          ⟨0, 0, false⟩).expected =
        start_time + count_in_duration + (n : ℚ) * pattern_dur) ∧
    (∀ clock' : Nat → ℚ × ℚ, (∀ m, (clock' m).2 = (clock m).2) →
      (loop_trace start_time count_in_duration pattern_dur clock iterations).map
          (fun it => (it.expected, it.skipped)) =
        (loop_trace start_time count_in_duration pattern_dur clock' iterations).map
          (fun it => (it.expected, it.skipped))) := by
  constructor
  · intro n hn
    have hlen : n < (loop_trace start_time count_in_duration pattern_dur clock
        iterations).length := by
      simp [loop_trace, hn]
    rw [List.getD_eq_getElem _ _ hlen]
    unfold loop_trace
    rw [List.getElem_map, List.getElem_range]
    rfl
  · intro clock' hagree
    unfold loop_trace
    rw [List.map_map, List.map_map]
    apply List.map_congr_left
    intro m _
    simp only [Function.comp_def, loop_iter]
    rw [hagree m]

/-- C5 witness: iteration 3 of a concrete trace with a perturbed
actual-start clock still targets T0 + countIn + 3 * duration. -/
theorem loop_schedule_is_fixed_witness :
    ((loop_trace 10 2 (1/2) (fun m => ((m : ℚ) * 100, (m : ℚ))) 5).getD 3
      ⟨0, 0, false⟩).expected = 10 + 2 + 3 * (1/2) :=
  ((loop_schedule_is_fixed 10 2 (1/2) (fun m => ((m : ℚ) * 100, (m : ℚ))) 5).1 3
    (by decide))

/-- One step of the stop protocol preserves its inductive invariant. -/
theorem loop_step_preserves {a b : LoopSys} (hstep : LoopStep a b)
    (h1 : a.stop_stored = true → a.is_playing = false)
    (h2 : a.stop_returned = true → a.stop_stored = true ∧ a.player = .finished)
    (h3 : a.emitted_after_stop = 0) :
    (b.stop_stored = true → b.is_playing = false) ∧
    (b.stop_returned = true → b.stop_stored = true ∧ b.player = .finished) ∧
    b.emitted_after_stop = 0 := by
  cases hstep with
  | emit h =>
    refine ⟨h1, h2, ?_⟩
    cases hsr : a.stop_returned with
    | true =>
      have hfin := (h2 hsr).2
      rw [h] at hfin
      cases hfin
    | false => simp [hsr, h3]
  | poll_exit h hf => exact ⟨h1, fun hr => ⟨(h2 hr).1, rfl⟩, h3⟩
  | send_failure h => exact ⟨fun _ => rfl, fun hr => ⟨(h2 hr).1, rfl⟩, h3⟩
  | stop_store => exact ⟨fun _ => rfl, fun hr => ⟨rfl, (h2 hr).2⟩, h3⟩
  | stop_join h hp => exact ⟨h1, fun _ => ⟨h, hp⟩, h3⟩

/-- The inductive invariant of the stop protocol: once `stop` has stored
`false` the flag stays `false`; `stop` can only have returned after the
playback thread exited; and no event is ever emitted after `stop` returned. -/
theorem loop_sys_invariant (s : LoopSys) (hreach : ReachableSys s) :
    (s.stop_stored = true → s.is_playing = false) ∧
    (s.stop_returned = true → s.stop_stored = true ∧ s.player = .finished) ∧
    s.emitted_after_stop = 0 := by
  induction hreach with
  | refl => exact ⟨fun h => Bool.noConfusion h, fun h => Bool.noConfusion h, rfl⟩
  | tail _ hstep ih => exact loop_step_preserves hstep ih.1 ih.2.1 ih.2.2

/-- C6: in every reachable interleaving of the playback thread and the
controller, once `stop` has returned from `join`, the `is_playing` flag is
`false` (so `is_playing()` reports false), the playback thread has fully
exited, and the count of events emitted after `stop` returned is zero. -/
theorem stop_quiesces_playback (s : LoopSys) (hreach : ReachableSys s) :
    (s.stop_returned = true → s.is_playing = false ∧ s.player = .finished) ∧
    s.emitted_after_stop = 0 := by
  obtain ⟨h1, h2, h3⟩ := loop_sys_invariant s hreach
  exact ⟨fun hr => ⟨h1 (h2 hr).1, (h2 hr).2⟩, h3⟩

/-- C6 witness: the state reached by store-flag, poll-exit, join has
`is_playing = false`, an exited player, and zero events after stop. -/
theorem stop_quiesces_playback_witness :
    ({ is_playing := false, player := .finished, stop_stored := true,
       stop_returned := true, emitted_after_stop := 0 } : LoopSys).is_playing = false ∧
    ({ is_playing := false, player := .finished, stop_stored := true,
       stop_returned := true, emitted_after_stop := 0 } : LoopSys).emitted_after_stop = 0 := by
  have hreach : ReachableSys
      { is_playing := false, player := .finished, stop_stored := true,
        stop_returned := true, emitted_after_stop := 0 } := by
    have h1 : LoopStep startedSys
        { is_playing := false, player := .running, stop_stored := true,
          stop_returned := false, emitted_after_stop := 0 } :=
      LoopStep.stop_store startedSys
    have h2 : LoopStep
        { is_playing := false, player := .running, stop_stored := true,
          stop_returned := false, emitted_after_stop := 0 }
        { is_playing := false, player := .finished, stop_stored := true,
          stop_returned := false, emitted_after_stop := 0 } :=
      LoopStep.poll_exit _ rfl rfl
    have h3 : LoopStep
        { is_playing := false, player := .finished, stop_stored := true,
          stop_returned := false, emitted_after_stop := 0 }
        { is_playing := false, player := .finished, stop_stored := true,
          stop_returned := true, emitted_after_stop := 0 } :=
      LoopStep.stop_join _ rfl rfl
    exact Relation.ReflTransGen.tail
      (Relation.ReflTransGen.tail (Relation.ReflTransGen.tail .refl h1) h2) h3
  have := stop_quiesces_playback _ hreach
  exact ⟨(this.1 rfl).1, this.2⟩

/-- `maxRunAux` is at least its open-run accumulator. -/
theorem maxRunAux_ge (b : Bool) (l : List Bool) : ∀ c, c ≤ maxRunAux b l c := by
  induction l with
  | nil => intro c; exact Nat.le_refl c
  | cons x rest ih =>
    intro c
    by_cases hx : x = b
    · simpa [maxRunAux, hx] using Nat.le_trans (Nat.le_succ c) (ih (c + 1))
    · simp only [maxRunAux, if_neg hx]
      exact Nat.le_max_left c (maxRunAux b rest 0)

/-- The rule-4 scanner decides whether some kick run extended by the open
accumulator exceeds two. -/
theorem kick_scan_eq (l : List Bool) : ∀ c, c ≤ 2 →
    kick_run_exceeds_two l c = decide (2 < maxRunAux true l c) := by
  induction l with
  | nil =>
    intro c hc
    have : ¬(2 < c) := by omega
    simp [kick_run_exceeds_two, maxRunAux, this]
  | cons x rest ih =>
    intro c hc
    cases x with
    | true =>
      have hm : maxRunAux true (true :: rest) c = maxRunAux true rest (c + 1) := by
        simp [maxRunAux]
      by_cases h3 : c + 1 > 2
      · have hge : 2 < maxRunAux true rest (c + 1) :=
          Nat.lt_of_lt_of_le (by omega) (maxRunAux_ge true rest (c + 1))
        have hunf : kick_run_exceeds_two (true :: rest) c = true := by
          simp [kick_run_exceeds_two, h3]
        rw [hunf, hm]
        simp [hge]
      · have hunf : kick_run_exceeds_two (true :: rest) c =
            kick_run_exceeds_two rest (c + 1) := by
          simp [kick_run_exceeds_two, h3]
        rw [hunf, hm, ih (c + 1) (by omega)]
    | false =>
      have hunf : kick_run_exceeds_two (false :: rest) c =
          kick_run_exceeds_two rest 0 := by
        simp [kick_run_exceeds_two]
      have hm : maxRunAux true (false :: rest) c =
          Nat.max c (maxRunAux true rest 0) := by
        simp [maxRunAux]
      rw [hunf, hm, ih 0 (by omega), decide_eq_decide, lt_max_iff]
      omega

/-- The rule-6 scanner decides whether some rest run extended by the open
accumulator exceeds eight. -/
theorem rest_scan_eq (l : List Bool) : ∀ c, c ≤ 8 →
    rest_run_exceeds_eight l c = decide (8 < maxRunAux false l c) := by
  induction l with
  | nil =>
    intro c hc
    have : ¬(8 < c) := by omega
    simp [rest_run_exceeds_eight, maxRunAux, this]
  | cons x rest ih =>
    intro c hc
    cases x with
    | false =>
      have hm : maxRunAux false (false :: rest) c = maxRunAux false rest (c + 1) := by
        simp [maxRunAux]
      by_cases h9 : c + 1 > 8
      · have hge : 8 < maxRunAux false rest (c + 1) :=
          Nat.lt_of_lt_of_le (by omega) (maxRunAux_ge false rest (c + 1))
        have hunf : rest_run_exceeds_eight (false :: rest) c = true := by
          simp [rest_run_exceeds_eight, h9]
        rw [hunf, hm]
        simp [hge]
      · have hunf : rest_run_exceeds_eight (false :: rest) c =
            rest_run_exceeds_eight rest (c + 1) := by
          simp [rest_run_exceeds_eight, h9]
        rw [hunf, hm, ih (c + 1) (by omega)]
    | true =>
      have hunf : rest_run_exceeds_eight (true :: rest) c =
          rest_run_exceeds_eight rest 0 := by
        simp [rest_run_exceeds_eight]
      have hm : maxRunAux false (true :: rest) c =
          Nat.max c (maxRunAux false rest 0) := by
        simp [maxRunAux]
      rw [hunf, hm, ih 0 (by omega), decide_eq_decide, lt_max_iff]
      omega

/-- The rule-5 scanner decides whether some rest run of length at least two
exists, given a consistent open accumulator. -/
theorem rest_two_scan_eq (l : List Bool) : ∀ c found, (found = false → c ≤ 1) →
    has_rest_run_of_two l c found = (found || decide (2 ≤ maxRunAux false l c)) := by
  induction l with
  | nil =>
    intro c found hcf
    cases hf : found with
    | true => simp [has_rest_run_of_two]
    | false =>
      have hc := hcf hf
      have h2 : ¬(2 ≤ c) := by omega
      simp [has_rest_run_of_two, maxRunAux, h2]
  | cons x rest ih =>
    intro c found hcf
    cases x with
    | false =>
      have hih := ih (c + 1) (found || decide (c + 1 ≥ 2)) (by
        intro hff
        rcases Bool.or_eq_false_iff.mp hff with ⟨hf1, hf2⟩
        have := hcf hf1
        simp only [decide_eq_false_iff_not] at hf2
        omega)
      have hunf : has_rest_run_of_two (false :: rest) c found =
          has_rest_run_of_two rest (c + 1) (found || decide (c + 1 ≥ 2)) := by
        simp [has_rest_run_of_two]
      have hm : maxRunAux false (false :: rest) c = maxRunAux false rest (c + 1) := by
        simp [maxRunAux]
      rw [hunf, hih, hm]
      have hg := maxRunAux_ge false rest (c + 1)
      by_cases h2 : 2 ≤ c + 1
      · have hmm : 2 ≤ maxRunAux false rest (c + 1) := Nat.le_trans h2 hg
        simp [h2, hmm]
      · simp [h2, Bool.or_assoc]
    | true =>
      have hih := ih 0 found (fun _ => by omega)
      have hunf : has_rest_run_of_two (true :: rest) c found =
          has_rest_run_of_two rest 0 found := by
        simp [has_rest_run_of_two]
      have hm : maxRunAux false (true :: rest) c =
          Nat.max c (maxRunAux false rest 0) := by
        simp [maxRunAux]
      rw [hunf, hih, hm]
      cases hf : found with
      | true => simp
      | false =>
        have hc1 : c ≤ 1 := hcf hf
        simp only [Bool.false_or]
        rw [decide_eq_decide, le_max_iff]
        omega

/-- Soundness of `validate_steps`: an accepted pattern satisfies all six
semantic invariants. -/
theorem validate_ok_invariants (p : Pattern) (h : p.validate_steps = .ok ()) :
    validInvariants p := by
  unfold Pattern.validate_steps at h
  split at h
  · simp at h
  · split at h
    · simp at h
    · split at h
      · simp at h
      · split at h
        · simp at h
        · split at h
          · simp at h
          · split at h
            · simp at h
            · rename_i h1 h2 h3 h4 h5 h6
              simp only [Bool.not_eq_true', Bool.not_eq_false] at h1 h2 h5
              rw [not_or] at h3
              rcases h3 with ⟨h3a, h3b⟩
              rw [not_lt] at h3a
              rw [not_lt] at h3b
              refine ⟨h2, ?_, ?_, ?_, ?_, ?_, h1⟩
              · calc (1/8 : ℚ) = 0.125 := by norm_num
                  _ ≤ p.density := h3a
              · calc p.density ≤ 0.5 := h3b
                  _ = 1/2 := by norm_num
              · have hksc := kick_scan_eq p.steps 0 (by omega)
                have h4f : kick_run_exceeds_two p.steps 0 = false :=
                  Bool.eq_false_iff.mpr h4
                rw [h4f] at hksc
                have hdec := of_decide_eq_false hksc.symm
                unfold maxRun
                omega
              · have hrsc := rest_two_scan_eq p.steps 0 false (fun _ => by omega)
                rw [h5] at hrsc
                simp only [Bool.false_or] at hrsc
                exact of_decide_eq_true hrsc.symm
              · have hrse := rest_scan_eq p.steps 0 (by omega)
                have h6f : rest_run_exceeds_eight p.steps 0 = false :=
                  Bool.eq_false_iff.mpr h6
                rw [h6f] at hrse
                have hdec := of_decide_eq_false hrse.symm
                unfold maxRun
                omega

/-- Every pattern accepted by the inner retry loop of
`try_generate_with_distance` passed `validate_steps` and the uniqueness gate. -/
theorem try_generate_loop_ok (ts : TimeSignature) (c : ComplexityLevel)
    (history : List Pattern) (d : Nat) (s : Draws) :
    ∀ fuel k p, (try_generate_loop ts c history d s fuel k).1 = .ok p →
      p.validate_steps = .ok () ∧ is_pattern_unique p history d = true := by
  intro fuel
  induction fuel with
  | zero => intro k p h; exact absurd h (by simp [try_generate_loop])
  | succ n ih =>
    intro k p h
    rw [try_generate_loop] at h
    split at h
    · exact ih _ p h
    · rename_i u heq
      split at h
      · rename_i huniq
        simp only at h
        cases h
        cases u
        exact ⟨heq, huniq⟩
      · exact ih _ p h

/-- Every pattern accepted by the inner retry loop of `generate` passed
`validate_steps`. -/
theorem generate_loop_ok (ts : TimeSignature) (c : ComplexityLevel)
    (history : List Pattern) (s : Draws) :
    ∀ fuel k p, (generate_loop ts c history s fuel k).1 = .ok p →
      p.validate_steps = .ok () := by
  intro fuel
  induction fuel with
  | zero => intro k p h; exact absurd h (by simp [generate_loop])
  | succ n ih =>
    intro k p h
    rw [generate_loop] at h
    split at h
    · exact ih _ p h
    · rename_i u heq
      split at h
      · simp only at h
        cases h
        cases u
        exact heq
      · exact ih _ p h

/-- Every pattern produced by `try_generate_with_distance` passed
`validate_steps`. -/
theorem try_generate_with_distance_ok (ts : TimeSignature) (c : ComplexityLevel)
    (history : List Pattern) (d : Nat) (s : Draws) (k : Nat) (p : Pattern)
    (h : (try_generate_with_distance ts c history d s k).1 = .ok p) :
    p.validate_steps = .ok () := by
  unfold try_generate_with_distance at h
  split at h
  · exact absurd h (by simp)
  · exact (try_generate_loop_ok ts c history d s 100 k p h).1

/-- Every pattern produced by a tier's cycle loop passed `validate_steps`. -/
theorem attempt_tier_ok (ts : TimeSignature) (c : ComplexityLevel)
    (history : List Pattern) (s : Draws) (d : Nat) :
    ∀ tries k p, (attempt_tier ts c history s d tries k).1 = some p →
      p.validate_steps = .ok () := by
  intro tries
  induction tries with
  | zero => intro k p h; exact absurd h (by simp [attempt_tier])
  | succ n ih =>
    intro k p h
    rw [attempt_tier] at h
    rcases htg : try_generate_with_distance ts c history d s k with ⟨r, k2⟩
    rw [htg] at h
    cases r with
    | ok q =>
      simp only at h
      cases h
      exact try_generate_with_distance_ok ts c history d s k p (by rw [htg])
    | error e => exact ih k2 p h

/-- C3: every pattern returned by the generator — through `generate` or
`generate_unique` — satisfies all six validity invariants: a kick on
position 0, density within [1/8, 1/2], no kick run longer than 2, some rest
run of length at least 2, no rest run longer than 8, and hence at least one
kick. -/
theorem generator_output_valid (ts : TimeSignature) (c : ComplexityLevel)
    (history : List Pattern) (s : Draws) (k : Nat) :
    (∀ p, (generate ts c history s k).1 = .ok p → validInvariants p) ∧
    (∀ p t, generate_unique ts c history s k = .ok (p, t) → validInvariants p) := by
  constructor
  · intro p h
    unfold generate at h
    split at h
    · exact absurd h (by simp)
    · exact validate_ok_invariants p (generate_loop_ok ts c history s 1000 k p h)
  · intro p t h
    unfold generate_unique at h
    rcases h3 : attempt_tier ts c history s 3 10 k with ⟨o3, k1⟩
    rw [h3] at h
    cases o3 with
    | some q =>
      simp only at h
      cases h
      exact validate_ok_invariants p (attempt_tier_ok ts c history s 3 10 k p (by rw [h3]))
    | none =>
      simp only at h
      rcases h2 : attempt_tier ts c history s 2 10 k1 with ⟨o2, k2⟩
      rw [h2] at h
      cases o2 with
      | some q =>
        simp only at h
        cases h
        exact validate_ok_invariants p (attempt_tier_ok ts c history s 2 10 k1 p (by rw [h2]))
      | none =>
        simp only at h
        rcases h1 : attempt_tier ts c history s 1 10 k2 with ⟨o1, k3⟩
        rw [h1] at h
        cases o1 with
        | some q =>
          simp only at h
          cases h
          exact validate_ok_invariants p (attempt_tier_ok ts c history s 1 10 k2 p (by rw [h1]))
        | none => exact absurd h (by simp)

/-- C3 witness: a concrete draw stream whose first candidate (kicks at
positions 0 and 8) is returned by `generate_unique`, hence satisfies the
invariants. -/
theorem generator_output_valid_witness :
    validInvariants (Pattern.new [true, false, false, false, false, false, false, false,
      true, false, false, false, false, false, false, false] ⟨4, 4⟩ .Simple) :=
  (generator_output_valid ⟨4, 4⟩ .Simple [] (fun n => if n == 1 then 70 else 0) 0).2
    (Pattern.new [true, false, false, false, false, false, false, false,
      true, false, false, false, false, false, false, false] ⟨4, 4⟩ .Simple) 3
    (by decide)

/-- Under an all-zero draw stream the Simple sampling loop keeps hitting
position 0 (a no-op), so the candidate never gains a second kick. -/
theorem zero_sample_steps (s : Draws) (hs : ∀ m, s m = 0) : ∀ fuel k,
    sample_steps (weight_units (adjust_weights_for_complexity base_weights_4_4 .Simple))
      2 s k ((List.replicate 16 false).set 0 true) fuel =
    (((List.replicate 16 false).set 0 true), k + fuel) := by
  intro fuel
  induction fuel with
  | zero => intro k; rfl
  | succ n ih =>
    intro k
    rw [sample_steps]
    have hcount : ((((List.replicate 16 false).set 0 true).filter fun st => st).length) < 2 := by
      decide
    rw [if_pos hcount, hs k]
    have hset : ((List.replicate 16 false).set 0 true).set
        (sample_index (weight_units (adjust_weights_for_complexity base_weights_4_4 .Simple)) 0)
        true = (List.replicate 16 false).set 0 true := by decide
    rw [hset, ih (k + 1)]
    have harith : k + 1 + n = k + (n + 1) := by omega
    rw [harith]

/-- Under an all-zero draw stream every Simple candidate is the lone-downbeat
pattern, and one candidate consumes 101 draws. -/
theorem zero_build_candidate (s : Draws) (hs : ∀ m, s m = 0) (k : Nat) :
    build_candidate .Simple s k = ((List.replicate 16 false).set 0 true, k + 101) := by
  unfold build_candidate
  rw [hs k]
  norm_num [target_kicks_for_complexity]
  exact zero_sample_steps s hs 100 (k + 1)

/-- Under an all-zero draw stream every cycle of `try_generate_with_distance`
fails: each candidate has density 1/16 and is rejected by the validator. -/
theorem zero_try_loop (s : Draws) (hs : ∀ m, s m = 0) (d : Nat) : ∀ fuel k,
    (try_generate_loop ⟨4, 4⟩ .Simple [] d s fuel k).1 = .error (.distance_not_met d) := by
  intro fuel
  induction fuel with
  | zero => intro k; rfl
  | succ n ih =>
    intro k
    rw [try_generate_loop]
    rw [zero_build_candidate s hs k]
    have hval : (Pattern.new ((List.replicate 16 false).set 0 true) ⟨4, 4⟩ .Simple).validate_steps
        = .error "Pattern density out of range [0.125, 0.5]" := by decide
    simp only [hval]
    exact ih (k + 101)

/-- Under an all-zero draw stream every tier's 10 cycles all fail. -/
theorem zero_attempt_tier (s : Draws) (hs : ∀ m, s m = 0) (d : Nat) : ∀ tries k,
    (attempt_tier ⟨4, 4⟩ .Simple [] s d tries k).1 = none := by
  intro tries
  induction tries with
  | zero => intro k; rfl
  | succ n ih =>
    intro k
    rw [attempt_tier]
    rcases htg : try_generate_with_distance ⟨4, 4⟩ .Simple [] d s k with ⟨r, k2⟩
    have hr : r = .error (.distance_not_met d) := by
      have h1 : (try_generate_with_distance ⟨4, 4⟩ .Simple [] d s k).1 =
          .error (.distance_not_met d) := by
        unfold try_generate_with_distance
        rw [if_neg (by decide)]
        exact zero_try_loop s hs d 100 k
      rw [htg] at h1
      exact h1
    subst hr
    exact ih k2

/-- Under any all-zero draw stream, `generate_unique` with empty history
exhausts all three tiers. -/
theorem zero_generate_unique (s : Draws) (hs : ∀ m, s m = 0) (k : Nat) :
    generate_unique ⟨4, 4⟩ .Simple [] s k = .error .generation_exhausted := by
  unfold generate_unique
  rcases h3 : attempt_tier ⟨4, 4⟩ .Simple [] s 3 10 k with ⟨o3, k1⟩
  have ho3 : o3 = none := by
    have := zero_attempt_tier s hs 3 10 k
    rw [h3] at this
    exact this
  subst ho3
  rcases h2 : attempt_tier ⟨4, 4⟩ .Simple [] s 2 10 k1 with ⟨o2, k2⟩
  have ho2 : o2 = none := by
    have := zero_attempt_tier s hs 2 10 k1
    rw [h2] at this
    exact this
  subst ho2
  rcases h1 : attempt_tier ⟨4, 4⟩ .Simple [] s 1 10 k2 with ⟨o1, k3⟩
  have ho1 : o1 = none := by
    have := zero_attempt_tier s hs 1 10 k2
    rw [h1] at this
    exact this
  subst ho1
  simp only [h3, h2, h1]

/-- C8 counterexample: the claim quantifies over every sequence of random
draws, but under the all-zero draw stream every candidate of every cycle is
the invalid lone-downbeat pattern, so `generate_unique` with empty history
does not succeed at all — let alone at tier 3 on its first attempt — and
exhausts instead. -/
theorem empty_history_can_exhaust :
    generate_unique ⟨4, 4⟩ .Simple [] (fun _ => 0) 0 = .error .generation_exhausted :=
  zero_generate_unique (fun _ => 0) (fun _ => rfl) 0

/-- A retry loop whose first candidate validates and passes the uniqueness
gate succeeds immediately with that candidate. -/
theorem try_generate_loop_first_valid (ts : TimeSignature) (c : ComplexityLevel)
    (history : List Pattern) (d : Nat) (s : Draws) (fuel k : Nat)
    (hval : (Pattern.new (build_candidate c s k).1 ts c).validate_steps = .ok ())
    (huniq : is_pattern_unique (Pattern.new (build_candidate c s k).1 ts c) history d = true) :
    try_generate_loop ts c history d s (fuel + 1) k =
      (.ok (Pattern.new (build_candidate c s k).1 ts c), (build_candidate c s k).2) := by
  rw [try_generate_loop]
  simp only [hval, huniq, if_true]

/-- A tier whose first cycle succeeds returns that cycle's pattern. -/
theorem attempt_tier_first_ok (ts : TimeSignature) (c : ComplexityLevel)
    (history : List Pattern) (s : Draws) (d tries k k2 : Nat) (p : Pattern)
    (h : try_generate_with_distance ts c history d s k = (.ok p, k2)) :
    attempt_tier ts c history s d (tries + 1) k = (some p, k2) := by
  rw [attempt_tier, h]

/-- C8 amended: with empty history, whenever the first sampled candidate
passes validation, `generate_unique` succeeds at the strictest tier (3) on
its first internal attempt and returns exactly that candidate (the
uniqueness gate is vacuous on empty history).  The unamended universal claim
fails: a draw stream may keep producing invalid candidates. -/
theorem empty_history_first_attempt (c : ComplexityLevel) (s : Draws) (k : Nat)
    (hval : (Pattern.new (build_candidate c s k).1 ⟨4, 4⟩ c).validate_steps = .ok ()) :
    generate_unique ⟨4, 4⟩ c [] s k =
      .ok (Pattern.new (build_candidate c s k).1 ⟨4, 4⟩ c, 3) := by
  have huniq : is_pattern_unique (Pattern.new (build_candidate c s k).1 ⟨4, 4⟩ c) [] 3 = true := by
    simp [is_pattern_unique]
  have hloop := try_generate_loop_first_valid ⟨4, 4⟩ c [] 3 s 99 k hval huniq
  have htgd : try_generate_with_distance ⟨4, 4⟩ c [] 3 s k =
      (.ok (Pattern.new (build_candidate c s k).1 ⟨4, 4⟩ c), (build_candidate c s k).2) := by
    unfold try_generate_with_distance
    rw [if_neg (by decide)]
    exact hloop
  have hat := attempt_tier_first_ok ⟨4, 4⟩ c [] s 3 9 k (build_candidate c s k).2
    (Pattern.new (build_candidate c s k).1 ⟨4, 4⟩ c) htgd
  unfold generate_unique
  rw [hat]

/-- C8 witness: a concrete stream whose first candidate (kicks at 0 and 8)
validates, so `generate_unique` with empty history returns it at tier 3. -/
theorem empty_history_first_attempt_witness :
    generate_unique ⟨4, 4⟩ .Simple [] (fun n => if n == 1 then 70 else 0) 0 =
      .ok (Pattern.new (build_candidate .Simple (fun n => if n == 1 then 70 else 0) 0).1
        ⟨4, 4⟩ .Simple, 3) :=
  empty_history_first_attempt .Simple (fun n => if n == 1 then 70 else 0) 0 (by decide)

/-- C4: `generate_unique` is exactly the escalation driver over the tier
schedule [(3,10), (2,10), (1,10)]; every success carries tier 3, 2 or 1;
a tier-3 success is the first successful tier-3 cycle; a tier-2 (tier-1)
success is returned only when all 10 tier-3 (and tier-2) cycles failed; and
GenerationExhausted is reported exactly when all 30 cycles fail. -/
theorem tier_escalation (ts : TimeSignature) (c : ComplexityLevel)
    (history : List Pattern) (s : Draws) (k : Nat) :
    generate_unique ts c history s k =
      escalation_driver ts c history s [(3, 10), (2, 10), (1, 10)] k ∧
    (∀ p t, generate_unique ts c history s k = .ok (p, t) → t = 3 ∨ t = 2 ∨ t = 1) ∧
    (∀ p, generate_unique ts c history s k = .ok (p, 3) →
      (attempt_tier ts c history s 3 10 k).1 = some p) ∧
    (∀ p, generate_unique ts c history s k = .ok (p, 2) →
      (attempt_tier ts c history s 3 10 k).1 = none ∧
      (attempt_tier ts c history s 2 10 (attempt_tier ts c history s 3 10 k).2).1 = some p) ∧
    (∀ p, generate_unique ts c history s k = .ok (p, 1) →
      (attempt_tier ts c history s 3 10 k).1 = none ∧
      (attempt_tier ts c history s 2 10 (attempt_tier ts c history s 3 10 k).2).1 = none ∧
      (attempt_tier ts c history s 1 10
        (attempt_tier ts c history s 2 10 (attempt_tier ts c history s 3 10 k).2).2).1 = some p) ∧
    (generate_unique ts c history s k = .error .generation_exhausted ↔
      (attempt_tier ts c history s 3 10 k).1 = none ∧
      (attempt_tier ts c history s 2 10 (attempt_tier ts c history s 3 10 k).2).1 = none ∧
      (attempt_tier ts c history s 1 10
        (attempt_tier ts c history s 2 10 (attempt_tier ts c history s 3 10 k).2).2).1 = none) := by
  rcases h3 : attempt_tier ts c history s 3 10 k with ⟨o3, k1⟩
  cases o3 with
  | some q3 =>
    have hg : generate_unique ts c history s k = .ok (q3, 3) := by
      unfold generate_unique
      simp only [h3]
    have hd : escalation_driver ts c history s [(3, 10), (2, 10), (1, 10)] k = .ok (q3, 3) := by
      simp only [escalation_driver, h3]
    refine ⟨hg.trans hd.symm, ?_, ?_, ?_, ?_, ?_⟩
    · intro p t h
      rw [hg] at h
      simp only [Except.ok.injEq, Prod.mk.injEq] at h
      exact Or.inl h.2.symm
    · intro p h
      rw [hg] at h
      simp only [Except.ok.injEq, Prod.mk.injEq] at h
      simp [h.1]
    · intro p h
      rw [hg] at h
      simp at h
    · intro p h
      rw [hg] at h
      simp at h
    · constructor
      · intro h
        rw [hg] at h
        simp at h
      · rintro ⟨hn, -⟩
        simp at hn
  | none =>
    rcases h2 : attempt_tier ts c history s 2 10 k1 with ⟨o2, k2⟩
    cases o2 with
    | some q2 =>
      have hg : generate_unique ts c history s k = .ok (q2, 2) := by
        unfold generate_unique
        simp only [h3, h2]
      have hd : escalation_driver ts c history s [(3, 10), (2, 10), (1, 10)] k = .ok (q2, 2) := by
        simp only [escalation_driver, h3, h2]
      refine ⟨hg.trans hd.symm, ?_, ?_, ?_, ?_, ?_⟩
      · intro p t h
        rw [hg] at h
        simp only [Except.ok.injEq, Prod.mk.injEq] at h
        exact Or.inr (Or.inl h.2.symm)
      · intro p h
        rw [hg] at h
        simp at h
      · intro p h
        rw [hg] at h
        simp only [Except.ok.injEq, Prod.mk.injEq] at h
        exact ⟨rfl, by simp [h.1]⟩
      · intro p h
        rw [hg] at h
        simp at h
      · constructor
        · intro h
          rw [hg] at h
          simp at h
        · rintro ⟨-, hn, -⟩
          simp at hn
    | none =>
      rcases h1 : attempt_tier ts c history s 1 10 k2 with ⟨o1, k3⟩
      cases o1 with
      | some q1 =>
        have hg : generate_unique ts c history s k = .ok (q1, 1) := by
          unfold generate_unique
          simp only [h3, h2, h1]
        have hd : escalation_driver ts c history s [(3, 10), (2, 10), (1, 10)] k =
            .ok (q1, 1) := by
          simp only [escalation_driver, h3, h2, h1]
        refine ⟨hg.trans hd.symm, ?_, ?_, ?_, ?_, ?_⟩
        · intro p t h
          rw [hg] at h
          simp only [Except.ok.injEq, Prod.mk.injEq] at h
          exact Or.inr (Or.inr h.2.symm)
        · intro p h
          rw [hg] at h
          simp at h
        · intro p h
          rw [hg] at h
          simp at h
        · intro p h
          rw [hg] at h
          simp only [Except.ok.injEq, Prod.mk.injEq] at h
          exact ⟨rfl, rfl, by simp [h.1]⟩
        · constructor
          · intro h
            rw [hg] at h
            simp at h
          · rintro ⟨-, -, hn⟩
            simp at hn
      | none =>
        have hg : generate_unique ts c history s k = .error .generation_exhausted := by
          unfold generate_unique
          simp only [h3, h2, h1]
        have hd : escalation_driver ts c history s [(3, 10), (2, 10), (1, 10)] k =
            .error .generation_exhausted := by
          simp only [escalation_driver, h3, h2, h1]
        refine ⟨hg.trans hd.symm, ?_, ?_, ?_, ?_, ?_⟩
        · intro p t h
          rw [hg] at h
          simp at h
        · intro p h
          rw [hg] at h
          simp at h
        · intro p h
          rw [hg] at h
          simp at h
        · intro p h
          rw [hg] at h
          simp at h
        · constructor
          · intro _
            exact ⟨rfl, rfl, rfl⟩
          · intro _
            exact hg

/-- C4 witness: a concrete stream whose first tier-3 cycle succeeds, so the
tier-3 success is the first tier-3 cycle's pattern. -/
theorem tier_escalation_witness :
    (attempt_tier ⟨4, 4⟩ .Simple [] (fun n => if n == 1 then 70 else 0) 3 10 0).1 =
      some (Pattern.new (build_candidate .Simple (fun n => if n == 1 then 70 else 0) 0).1
        ⟨4, 4⟩ .Simple) :=
  (tier_escalation ⟨4, 4⟩ .Simple [] (fun n => if n == 1 then 70 else 0) 0).2.2.1
    (Pattern.new (build_candidate .Simple (fun n => if n == 1 then 70 else 0) 0).1
      ⟨4, 4⟩ .Simple)
    (by decide)

/-- Membership through stable insertion. -/
theorem mem_insert_by_time (e a : MidiEvent) : ∀ l,
    (a ∈ insert_by_time e l ↔ a = e ∨ a ∈ l) := by
  intro l
  induction l with
  | nil => simp [insert_by_time]
  | cons x xs ih =>
    by_cases hlt : e.time_offset < x.time_offset
    · simp only [insert_by_time, if_pos hlt, List.mem_cons]
    · simp only [insert_by_time, if_neg hlt, List.mem_cons, ih]
      tauto

/-- Membership through the stable sort's fold. -/
theorem mem_sort_fold (a : MidiEvent) : ∀ l acc,
    (a ∈ List.foldl (fun acc e => insert_by_time e acc) acc l ↔ a ∈ acc ∨ a ∈ l) := by
  intro l
  induction l with
  | nil => intro acc; simp
  | cons e rest ih =>
    intro acc
    rw [List.foldl_cons, ih, mem_insert_by_time]
    simp only [List.mem_cons]
    tauto

/-- The stable sort permutes membership. -/
theorem mem_sort_by_time (a : MidiEvent) (l : List MidiEvent) :
    a ∈ sort_by_time l ↔ a ∈ l := by
  unfold sort_by_time
  rw [mem_sort_fold]
  simp

/-- Stable insertion preserves sortedness. -/
theorem insert_by_time_sorted (e : MidiEvent) : ∀ l,
    l.Pairwise time_le → (insert_by_time e l).Pairwise time_le := by
  intro l
  induction l with
  | nil => intro _; simp [insert_by_time, time_le]
  | cons x xs ih =>
    intro hp
    rw [List.pairwise_cons] at hp
    by_cases hlt : e.time_offset < x.time_offset
    · simp only [insert_by_time, if_pos hlt]
      rw [List.pairwise_cons]
      refine ⟨?_, ?_⟩
      · intro y hy
        rcases List.mem_cons.mp hy with h | h
        · subst h; exact le_of_lt hlt
        · exact le_trans (le_of_lt hlt) (hp.1 y h)
      · rw [List.pairwise_cons]
        exact hp
    · simp only [insert_by_time, if_neg hlt]
      rw [List.pairwise_cons]
      refine ⟨?_, ih hp.2⟩
      intro y hy
      rcases (mem_insert_by_time e y xs).mp hy with h | h
      · subst h; exact le_of_not_lt hlt
      · exact hp.1 y h

/-- The stable sort's fold sorts. -/
theorem sort_fold_sorted : ∀ l acc, acc.Pairwise time_le →
    (List.foldl (fun acc e => insert_by_time e acc) acc l).Pairwise time_le := by
  intro l
  induction l with
  | nil => intro acc h; exact h
  | cons e rest ih =>
    intro acc h
    rw [List.foldl_cons]
    exact ih (insert_by_time e acc) (insert_by_time_sorted e acc h)

/-- The stable sort sorts by time offset. -/
theorem sort_by_time_sorted (l : List MidiEvent) :
    (sort_by_time l).Pairwise time_le :=
  sort_fold_sorted l [] (by simp)

/-- Inserting a kick event into a sorted list that respects the tie-break
discipline preserves the discipline: the kick lands after every tied event. -/
theorem insert_kick_tie (e : MidiEvent) (he : e.note = KICK_NOTE) : ∀ l,
    l.Pairwise time_le → l.Pairwise tie_click_first →
    (insert_by_time e l).Pairwise tie_click_first := by
  intro l
  induction l with
  | nil => intro _ _; simp [insert_by_time]
  | cons x xs ih =>
    intro hs hq
    rw [List.pairwise_cons] at hs hq
    by_cases hlt : e.time_offset < x.time_offset
    · simp only [insert_by_time, if_pos hlt]
      rw [List.pairwise_cons]
      refine ⟨?_, ?_⟩
      · intro y hy heq
        rcases List.mem_cons.mp hy with h | h
        · subst h
          exact absurd heq (ne_of_lt hlt)
        · have : e.time_offset < y.time_offset := lt_of_lt_of_le hlt (hs.1 y h)
          exact absurd heq (ne_of_lt this)
      · rw [List.pairwise_cons]
        exact hq
    · simp only [insert_by_time, if_neg hlt]
      rw [List.pairwise_cons]
      refine ⟨?_, ih hs.2 hq.2⟩
      intro y hy
      rcases (mem_insert_by_time e y xs).mp hy with h | h
      · subst h
        intro _ hcon
        rw [he] at hcon
        exact absurd hcon.2 (by decide)
      · exact hq.1 y h

/-- A list of click events trivially respects the tie-break discipline. -/
theorem all_click_tie : ∀ l : List MidiEvent,
    (∀ a ∈ l, a.note = CLICK_NOTE) → l.Pairwise tie_click_first := by
  intro l
  induction l with
  | nil => intro _; simp
  | cons x xs ih =>
    intro hall
    rw [List.pairwise_cons]
    refine ⟨?_, ih fun a ha => hall a (List.mem_cons_of_mem x ha)⟩
    intro y _ _ hcon
    have := hall x (List.mem_cons_self x xs)
    rw [this] at hcon
    exact absurd hcon.1 (by decide)

/-- Folding kick events into a sorted, discipline-respecting accumulator
keeps both properties. -/
theorem fold_kicks_tie : ∀ kicks acc, (∀ e ∈ kicks, e.note = KICK_NOTE) →
    acc.Pairwise time_le → acc.Pairwise tie_click_first →
    (List.foldl (fun acc e => insert_by_time e acc) acc kicks).Pairwise tie_click_first := by
  intro kicks
  induction kicks with
  | nil => intro acc _ _ hq; exact hq
  | cons e rest ih =>
    intro acc hall hs hq
    rw [List.foldl_cons]
    exact ih (insert_by_time e acc)
      (fun x hx => hall x (List.mem_cons_of_mem e hx))
      (insert_by_time_sorted e acc hs)
      (insert_kick_tie e (hall e (List.mem_cons_self e rest)) acc hs hq)

/-- Every event built by the click loop carries the click note. -/
theorem click_events_note (spp : ℚ) : ∀ beats (a : MidiEvent),
    a ∈ click_events spp beats → a.note = CLICK_NOTE := by
  intro beats
  induction beats with
  | nil => intro a ha; cases ha
  | cons b rest ih =>
    intro a ha
    rcases List.mem_cons.mp ha with h | h
    · subst h; rfl
    · rcases List.mem_cons.mp h with h2 | h2
      · subst h2; rfl
      · exact ih a h2

/-- Every event built by the kick loop carries the kick note. -/
theorem kick_events_note (spp : ℚ) : ∀ steps (i : Nat) (a : MidiEvent),
    a ∈ kick_events spp steps i → a.note = KICK_NOTE := by
  intro steps
  induction steps with
  | nil => intro i a ha; cases ha
  | cons st rest ih =>
    intro i a ha
    cases st with
    | true =>
      simp only [kick_events, if_true] at ha
      rcases List.mem_cons.mp ha with h | h
      · subst h; rfl
      · rcases List.mem_cons.mp h with h2 | h2
        · subst h2; rfl
        · exact ih (i + 1) a h2
    | false =>
      simp only [kick_events, Bool.false_eq_true, if_false] at ha
      exact ih (i + 1) a ha

/-- The click loop emits a trigger and a 50ms-later release for each beat. -/
theorem click_events_mem (spp : ℚ) : ∀ beats (b : Nat), b ∈ beats →
    ({ time_offset := (b : ℚ) * spp, note := CLICK_NOTE,
       velocity := CLICK_VELOCITY, event_type := .NoteOn } : MidiEvent) ∈
      click_events spp beats ∧
    ({ time_offset := (b : ℚ) * spp + 0.05, note := CLICK_NOTE,
       velocity := 0, event_type := .NoteOff } : MidiEvent) ∈
      click_events spp beats := by
  intro beats
  induction beats with
  | nil => intro b hb; cases hb
  | cons x rest ih =>
    intro b hb
    rcases List.mem_cons.mp hb with h | h
    · subst h
      exact ⟨List.mem_cons_self _ _,
        List.mem_cons_of_mem _ (List.mem_cons_self _ _)⟩
    · have := ih b h
      exact ⟨List.mem_cons_of_mem _ (List.mem_cons_of_mem _ this.1),
        List.mem_cons_of_mem _ (List.mem_cons_of_mem _ this.2)⟩

/-- The kick loop emits a trigger and a 100ms-later release for each kick
position (indexing from `i`). -/
theorem kick_events_mem (spp : ℚ) : ∀ steps (i j : Nat), steps.getD j false = true →
    ({ time_offset := ((i + j : Nat) : ℚ) * spp, note := KICK_NOTE,
       velocity := KICK_VELOCITY, event_type := .NoteOn } : MidiEvent) ∈
      kick_events spp steps i ∧
    ({ time_offset := ((i + j : Nat) : ℚ) * spp + 0.1, note := KICK_NOTE,
       velocity := 0, event_type := .NoteOff } : MidiEvent) ∈
      kick_events spp steps i := by
  intro steps
  induction steps with
  | nil => intro i j h; simp [List.getD] at h
  | cons st rest ih =>
    intro i j h
    cases j with
    | zero =>
      rw [List.getD_cons_zero] at h
      rw [h]
      simp only [kick_events, if_true, Nat.add_zero]
      exact ⟨List.mem_cons_self _ _,
        List.mem_cons_of_mem _ (List.mem_cons_self _ _)⟩
    | succ m =>
      rw [List.getD_cons_succ] at h
      have hmem := ih (i + 1) m h
      have harith : i + 1 + m = i + (m + 1) := by omega
      rw [harith] at hmem
      cases st with
      | true =>
        simp only [kick_events, if_true]
        exact ⟨List.mem_cons_of_mem _ (List.mem_cons_of_mem _ hmem.1),
          List.mem_cons_of_mem _ (List.mem_cons_of_mem _ hmem.2)⟩
      | false =>
        simp only [kick_events, Bool.false_eq_true, if_false]
        exact hmem

/-- C7: for every pattern and tempo, the pattern-body event sequence contains,
for every kick position, a trigger at position*secondsPerPosition and a
release 100ms later; when includeClick is set, a click trigger at every beat
position with a release 50ms later; and the merged sequence is sorted in
non-decreasing time-offset order with ties broken by stable insertion order,
so a kick event never precedes a click event with the same offset. -/
theorem pattern_events_spec (p : Pattern) (tempo_bpm : Nat) (include_click : Bool) :
    (∀ i : Nat, p.steps.getD i false = true →
      ({ time_offset := (i : ℚ) *
           (BeatGrid.mk p.time_signature p.subdivision p.num_measures).seconds_per_position
             tempo_bpm,
         note := KICK_NOTE, velocity := KICK_VELOCITY, event_type := .NoteOn } : MidiEvent) ∈
        pattern_to_midi_events p tempo_bpm include_click ∧
      ({ time_offset := (i : ℚ) *
           (BeatGrid.mk p.time_signature p.subdivision p.num_measures).seconds_per_position
             tempo_bpm + 0.1,
         note := KICK_NOTE, velocity := 0, event_type := .NoteOff } : MidiEvent) ∈
        pattern_to_midi_events p tempo_bpm include_click) ∧
    (include_click = true →
      ∀ b ∈ (BeatGrid.mk p.time_signature p.subdivision p.num_measures).beat_positions,
        ({ time_offset := (b : ℚ) *
             (BeatGrid.mk p.time_signature p.subdivision p.num_measures).seconds_per_position
               tempo_bpm,
           note := CLICK_NOTE, velocity := CLICK_VELOCITY, event_type := .NoteOn } : MidiEvent) ∈
          pattern_to_midi_events p tempo_bpm include_click ∧
        ({ time_offset := (b : ℚ) *
             (BeatGrid.mk p.time_signature p.subdivision p.num_measures).seconds_per_position
               tempo_bpm + 0.05,
           note := CLICK_NOTE, velocity := 0, event_type := .NoteOff } : MidiEvent) ∈
          pattern_to_midi_events p tempo_bpm include_click) ∧
    (pattern_to_midi_events p tempo_bpm include_click).Pairwise time_le ∧
    (pattern_to_midi_events p tempo_bpm include_click).Pairwise tie_click_first := by
  have hunf : pattern_to_midi_events p tempo_bpm include_click =
      sort_by_time
        ((if include_click then
            click_events
              ((BeatGrid.mk p.time_signature p.subdivision p.num_measures).seconds_per_position
                tempo_bpm)
              (BeatGrid.mk p.time_signature p.subdivision p.num_measures).beat_positions
          else []) ++
          kick_events
            ((BeatGrid.mk p.time_signature p.subdivision p.num_measures).seconds_per_position
              tempo_bpm)
            p.steps 0) := rfl
  refine ⟨?_, ?_, ?_, ?_⟩
  · intro i h
    have hk := kick_events_mem
      ((BeatGrid.mk p.time_signature p.subdivision p.num_measures).seconds_per_position tempo_bpm)
      p.steps 0 i h
    rw [Nat.zero_add] at hk
    constructor
    · rw [hunf, mem_sort_by_time]
      exact List.mem_append_right _ hk.1
    · rw [hunf, mem_sort_by_time]
      exact List.mem_append_right _ hk.2
  · intro hin b hb
    subst hin
    have hc := click_events_mem
      ((BeatGrid.mk p.time_signature p.subdivision p.num_measures).seconds_per_position tempo_bpm)
      (BeatGrid.mk p.time_signature p.subdivision p.num_measures).beat_positions b hb
    constructor
    · rw [hunf, mem_sort_by_time]
      refine List.mem_append_left _ ?_
      simpa using hc.1
    · rw [hunf, mem_sort_by_time]
      refine List.mem_append_left _ ?_
      simpa using hc.2
  · rw [hunf]
    exact sort_by_time_sorted _
  · rw [hunf]
    unfold sort_by_time
    rw [List.foldl_append]
    refine fold_kicks_tie _ _ ?_ ?_ ?_
    · exact fun e he => kick_events_note _ p.steps 0 e he
    · exact sort_fold_sorted _ [] (by simp)
    · refine all_click_tie _ ?_
      intro a ha
      rw [mem_sort_fold] at ha
      rcases ha with h | h
      · cases h
      · cases include_click with
        | true =>
          simp only [if_true] at h
          exact click_events_note _ _ a (by simpa using h)
        | false => simp at h
  
/-- C7 witness: for the lone-downbeat pattern at 120 BPM with the click on,
the kick trigger at offset 0 is in the event sequence. -/
theorem pattern_events_spec_witness :
    ({ time_offset := ((0 : Nat) : ℚ) *
         (BeatGrid.mk (Pattern.new [true, false, false, false, false, false, false, false,
             false, false, false, false, false, false, false, false]
             TimeSignature.four_four .Simple).time_signature
           (Pattern.new [true, false, false, false, false, false, false, false,
             false, false, false, false, false, false, false, false]
             TimeSignature.four_four .Simple).subdivision
           (Pattern.new [true, false, false, false, false, false, false, false,
             false, false, false, false, false, false, false, false]
             TimeSignature.four_four .Simple).num_measures).seconds_per_position 120,
       note := KICK_NOTE, velocity := KICK_VELOCITY, event_type := .NoteOn } : MidiEvent) ∈
      pattern_to_midi_events
        (Pattern.new [true, false, false, false, false, false, false, false,
          false, false, false, false, false, false, false, false]
          TimeSignature.four_four .Simple) 120 true :=
  ((pattern_events_spec
    (Pattern.new [true, false, false, false, false, false, false, false,
      false, false, false, false, false, false, false, false]
      TimeSignature.four_four .Simple) 120 true).1 0 (by decide)).1
